import Mathlib

/-!
Verification of the tensor-algebra façade (`src/src/tensor/mod.rs` and
`src/src/nn/mod.rs`) against its design specification.

The façade wraps an external compute engine.  The engine primitives
(`g_add1`, `f_eq1`, `f_all`, `index_select`, `scatter_`, `randint`, …) are
declared in the `wrappers` module, which is not part of the sources under
verification; they are modelled here from the specification (§6 lists the
primitive set the façade assumes: element-wise arithmetic, negate, power,
equality comparison, all-reduce, index-select, scatter-write, zero/ones
allocation, cast, device transfer, shape/kind introspection).  Numeric
element contents are modelled as rationals; machine floating point is out
of scope of the spec's data model, which treats the engine numerics
abstractly.  Fallible engine calls return `Except`; a Rust panic in façade
code is modelled as `Except.error` or `Option.none` as noted per function.
-/

namespace TchSpec

/-- Element kinds, from the `Kind` enumeration matched in
`src/src/tensor/mod.rs` (Debug impl, lines 209-213). -/
inductive Kind where
  | Int8 | Int16 | Int | Int64 | Uint8
  | Half | Float | Double
  | ComplexHalf | ComplexFloat | ComplexDouble
  deriving DecidableEq

/-- Device tags (abstract placement, spec §3). -/
inductive Device where
  | Cpu
  | Cuda (index : Nat)
  deriving DecidableEq

/-- Modelled from the spec: an Array value resident in the engine — shape,
element kind, device tag, and the flat element data (row-major, dimension 0
outermost).  Element contents are rationals standing for the engine's
numeric values. -/
structure Tensor where
  size : List Nat
  kind : Kind
  device : Device
  data : List ℚ
  deriving DecidableEq

/-- `is_int` classification from the Debug impl (line 210). -/
def Kind.isIntegral : Kind → Bool
  | .Int8 | .Int16 | .Int | .Int64 | .Uint8 => true
  | _ => false

/-- `is_float` classification from the Debug impl (line 211). -/
def Kind.isFloating : Kind → Bool
  | .Half | .Float | .Double => true
  | _ => false

/-- `numel`: total element count, the product of the dimension sizes
(engine shape introspection). -/
def numel (t : Tensor) : Nat := t.size.prod

/-- Modelled from the spec: an element-wise engine kernel keeps shape,
kind and device and maps the data. -/
def mapData (f : ℚ → ℚ) (t : Tensor) : Tensor :=
  { t with data := t.data.map f }

/-- Modelled from the spec: the engine `negate` primitive (element-wise). -/
def g_neg (t : Tensor) : Tensor := mapData (fun x => -x) t

/-- Modelled from the spec: the engine `power` primitive with an integer
scalar exponent (element-wise). -/
def pow_scalar (t : Tensor) (e : Int) : Tensor := mapData (fun x => x ^ e) t

/-- Modelled from the spec: engine scalar-broadcast addition `g_add1`. -/
def g_add1 (t : Tensor) (s : ℚ) : Tensor := mapData (fun x => x + s) t

/-- Modelled from the spec: engine scalar-broadcast subtraction `g_sub1`. -/
def g_sub1 (t : Tensor) (s : ℚ) : Tensor := mapData (fun x => x - s) t

/-- Modelled from the spec: engine scalar-broadcast multiplication `g_mul1`. -/
def g_mul1 (t : Tensor) (s : ℚ) : Tensor := mapData (fun x => x * s) t

/-- Modelled from the spec: engine scalar-broadcast division `g_div1`. -/
def g_div1 (t : Tensor) (s : ℚ) : Tensor := mapData (fun x => x / s) t

/-- Truncation toward zero, the engine's float-to-integer cast. -/
def truncQ (x : ℚ) : ℚ := if 0 ≤ x then (⌊x⌋ : ℚ) else (⌈x⌉ : ℚ)

/-- Modelled from the spec: value change performed by the engine cast to
kind `k` — integral kinds truncate, floating kinds are exact here. -/
def castKind (k : Kind) (x : ℚ) : ℚ := if k.isIntegral then truncQ x else x

/-- `to_kind` / `totype`: engine cast between kinds (spec §6). -/
def to_kind (t : Tensor) (k : Kind) : Tensor :=
  ⟨t.size, k, t.device, t.data.map (castKind k)⟩

/-- `to_device`: engine device transfer (spec §6). -/
def to_device (t : Tensor) (d : Device) : Tensor := { t with device := d }

/-- Modelled from the spec: engine binary element-wise equality comparison
(`f_eq1`); fails on incompatible operands (shape, kind or device mismatch),
else yields a boolean 0/1 tensor of the same shape. -/
def f_eq1 (a b : Tensor) : Except String Tensor :=
  if a.size = b.size ∧ a.kind = b.kind ∧ a.device = b.device then
    Except.ok ⟨a.size, Kind.Uint8, a.device,
      List.zipWith (fun x y => if x = y then (1 : ℚ) else 0) a.data b.data⟩
  else Except.error "eq1: incompatible operands"

/-- Modelled from the spec: engine all-reduce (`f_all`), logical AND over a
boolean Array, producing a rank-0 result. -/
def f_all (t : Tensor) : Except String Tensor :=
  Except.ok ⟨[], Kind.Uint8, t.device,
    [if t.data.all (fun x => decide (x ≠ 0)) then 1 else 0]⟩

/-- Modelled from the spec: engine binary element-wise addition (`g_add`);
fails on incompatible operands. -/
def f_add (a b : Tensor) : Except String Tensor :=
  if a.size = b.size ∧ a.kind = b.kind ∧ a.device = b.device then
    Except.ok ⟨a.size, a.kind, a.device, List.zipWith (· + ·) a.data b.data⟩
  else Except.error "add: incompatible operands"

/-- Modelled from the spec: zero allocation with shape, kind and device. -/
def zeros (size : List Nat) (kd : Kind × Device) : Tensor :=
  ⟨size, kd.1, kd.2, List.replicate size.prod 0⟩

/-- Modelled from the spec: ones allocation with shape, kind and device. -/
def ones (size : List Nat) (kd : Kind × Device) : Tensor :=
  ⟨size, kd.1, kd.2, List.replicate size.prod 1⟩

/-- `FLOAT_CPU` from `crate::wrappers::kind`. -/
def FLOAT_CPU : Kind × Device := (Kind.Float, Device.Cpu)

/-- `INT64_CPU` from `crate::wrappers::kind`. -/
def INT64_CPU : Kind × Device := (Kind.Int64, Device.Cpu)

/-- Modelled from the spec: `Tensor::randint` — draw `n` random integers in
`[0, high)` (uniform with replacement); the randomness source is the
oracle `rng`, reduced into range by the modulus. -/
def randint (high : Nat) (n : Nat) (rng : Nat → Nat) : Tensor :=
  ⟨[n], INT64_CPU.1, INT64_CPU.2, (List.range n).map (fun i => ((rng i % high : Nat) : ℚ))⟩

/-- Length of one row (slice along dimension 0). -/
def rowStride (t : Tensor) : Nat := t.size.tail.prod

/-- The `i`-th row of a tensor, as a flat data slice. -/
def getRow (t : Tensor) (i : Nat) : List ℚ :=
  (t.data.drop (i * rowStride t)).take (rowStride t)

/-- Modelled from the spec: engine `index_select` along dimension 0 —
gather the rows named by the (integer) index tensor. -/
def index_select0 (t : Tensor) (idx : Tensor) : Tensor :=
  ⟨idx.data.length :: t.size.tail, t.kind, t.device,
    (idx.data.map (fun q => getRow t ⌊q⌋.toNat)).flatten⟩

/-- Modelled from the spec: `unsqueeze(-1)` — a new trailing axis of
extent 1, data unchanged. -/
def unsqueeze_last (t : Tensor) : Tensor :=
  ⟨t.size ++ [1], t.kind, t.device, t.data⟩

/-- Modelled from the spec: engine `scatter_` along the trailing axis with
an index tensor whose trailing extent is 1 and a rank-0 source: within each
row `r` of the base, the position named by index element `r` is overwritten
with the source scalar. -/
def scatter_last (base : Tensor) (index : Tensor) (src : Tensor) : Tensor :=
  let L := base.size.getLastD 1
  let v := src.data.headD 0
  ⟨base.size, base.kind, base.device,
    (List.range base.data.length).map (fun p =>
      if ((p % L : Nat) : Int) = ⌊index.data.getD (p / L) 0⌋ then v
      else base.data.getD p 0)⟩

/-! ### The façade, from `src/src/tensor/mod.rs` -/

/-- `id` helper (lines 147-149): the reversal for commutative operators. -/
def id (v : Tensor) : Tensor := v

/-- `neg` helper (lines 151-153): reversal for subtraction. -/
def neg (t : Tensor) : Tensor := g_neg t

/-- `inv` helper (lines 155-157): `t.pow(-1)`, reversal for division. -/
def inv (t : Tensor) : Tensor := pow_scalar t (-1)

/-- `impl Add<i64> for Tensor` and `impl Add<f64> for Tensor`
(impl_op_basic, lines 50-80; instantiated line 160). -/
def tensor_add_scalar (t : Tensor) (s : ℚ) : Tensor := g_add1 t s

/-- `impl Mul<i64> for Tensor` / `impl Mul<f64> for Tensor` (line 165). -/
def tensor_mul_scalar (t : Tensor) (s : ℚ) : Tensor := g_mul1 t s

/-- `impl Sub<i64> for Tensor` / `impl Sub<f64> for Tensor` (line 175). -/
def tensor_sub_scalar (t : Tensor) (s : ℚ) : Tensor := g_sub1 t s

/-- `impl Div<i64> for Tensor` / `impl Div<f64> for Tensor` (line 170). -/
def tensor_div_scalar (t : Tensor) (s : ℚ) : Tensor := g_div1 t s

/-- `impl Add<Tensor> for i64` / `for f64` (impl_op_basic, lines 82-96,
reversal `id`, line 160). -/
def scalar_add_tensor (s : ℚ) (t : Tensor) : Tensor := id (g_add1 t s)

/-- `impl Mul<Tensor> for i64` / `for f64` (reversal `id`, line 165). -/
def scalar_mul_tensor (s : ℚ) (t : Tensor) : Tensor := id (g_mul1 t s)

/-- `impl Sub<Tensor> for i64` / `for f64` (reversal `neg`, line 175). -/
def scalar_sub_tensor (s : ℚ) (t : Tensor) : Tensor := neg (g_sub1 t s)

/-- `impl Div<Tensor> for i64` / `for f64` (reversal `inv`, line 170). -/
def scalar_div_tensor (s : ℚ) (t : Tensor) : Tensor := inv (g_div1 t s)

/-- `Vec<$typ>::from(&Tensor)` (from_tensor!, lines 241-248): cast to the
host type's kind and copy the data out. -/
def vecFrom (k : Kind) (t : Tensor) : List ℚ := (to_kind t k).data

/-- `impl From<&Tensor> for f64` (from_tensor!, lines 268-276): panics —
modelled as `Except.error` — unless the tensor has exactly one element;
otherwise returns element 0 of the copied-out data. -/
def f64_from (t : Tensor) : Except String ℚ :=
  if numel t ≠ 1 then
    Except.error ("expected exactly one element, got " ++ toString (numel t))
  else Except.ok ((vecFrom Kind.Double t).headD 0)

/-- `impl From<&Tensor> for i64` (from_tensor!, lines 268-276,
instantiated at `i64`/`Int64`). -/
def i64_from (t : Tensor) : Except String ℚ :=
  if numel t ≠ 1 then
    Except.error ("expected exactly one element, got " ++ toString (numel t))
  else Except.ok ((vecFrom Kind.Int64 t).headD 0)

/-- Structural equality (lines 422-435): shape check, then `f_eq1`, then
`f_all`, any engine error mapping to `false`; the final `i64::from` is the
panicking extraction, so `none` models a panic escaping the comparison. -/
def tensor_eq (a b : Tensor) : Option Bool :=
  if a.size ≠ b.size then some false
  else
    match f_eq1 a b with
    | Except.error _ => some false
    | Except.ok v =>
      match f_all v with
      | Except.error _ => some false
      | Except.ok w =>
        match i64_from w with
        | Except.error _ => none
        | Except.ok x => some (decide (0 < x))

/-- The structural shape of the Debug rendering (lines 207-222): a single
bracketed scalar, a bracketed element list, or the shape/kind summary. -/
inductive DebugOut where
  | bracketedScalar (v : ℚ)
  | bracketedList (vs : List ℚ)
  | summary (size : List Nat) (kind : Kind)
  deriving DecidableEq

/-- Whether a rendering is a single bracketed scalar. -/
def DebugOut.isScalar : DebugOut → Bool
  | .bracketedScalar _ => true
  | _ => false

/-- `impl std::fmt::Debug for Tensor` (lines 207-222), rendered
structurally: the match on (size, is_int, is_float) with the `< 10` guard
on the rank-1 arms, written as the equivalent condition chain; every
other case prints only the shape/kind summary. -/
def fmt (t : Tensor) : DebugOut :=
  let is_int := t.kind.isIntegral
  let is_float := t.kind.isFloating
  match t.size with
  | [] =>
    if is_int && !is_float then
      DebugOut.bracketedScalar ((vecFrom Kind.Int64 t).headD 0)
    else if !is_int && is_float then
      DebugOut.bracketedScalar ((vecFrom Kind.Double t).headD 0)
    else DebugOut.summary t.size t.kind
  | [s] =>
    if is_int && !is_float && decide (s < 10) then
      DebugOut.bracketedList (vecFrom Kind.Int64 t)
    else if !is_int && is_float && decide (s < 10) then
      DebugOut.bracketedList (vecFrom Kind.Double t)
    else DebugOut.summary t.size t.kind
  | _ => DebugOut.summary t.size t.kind

/-- `Tensor::random_batch2` (lines 332-351).  The leading-dimension reads
`t1.size()[0]` panic on a rank-0 operand (first error case); a leading
dimension mismatch panics with both shapes in the message; otherwise one
random index vector is drawn and both operands are gathered with it and
moved to the requested device. -/
def random_batch2 (t1 t2 : Tensor) (batch_size : Nat) (device : Device)
    (rng : Nat → Nat) : Except String (Tensor × Tensor) :=
  match t1.size, t2.size with
  | len1 :: _, len2 :: _ =>
    if len1 ≠ len2 then
      Except.error ("random_batch2: shape mismatch " ++ toString t1.size
        ++ " " ++ toString t2.size)
    else
      let index := randint len1 batch_size rng
      Except.ok (to_device (index_select0 t1 index) device,
                 to_device (index_select0 t2 index) device)
  | _, _ => Except.error "index out of bounds"

/-- `Tensor::from(0.)` (`impl From<T> for Tensor`, lines 201-205, at
`f64`): `of_slice(&[v]).view(&[])`, a rank-0 `Double` tensor on the CPU. -/
def from_f64 (v : ℚ) : Tensor := ⟨[], Kind.Double, Device.Cpu, [v]⟩

/-- `x + acc` for owned tensors (`impl Add<Tensor> for Tensor`, impl_op,
line 159): the unwrapped engine addition; `none` models the panic. -/
def hadd (a b : Tensor) : Option Tensor := (f_add a b).toOption

/-- Element-wise addition on compatible operands (the value computed by
`hadd` when it succeeds). -/
def add_pure (a b : Tensor) : Tensor :=
  ⟨a.size, a.kind, a.device, List.zipWith (· + ·) a.data b.data⟩

/-- `impl std::iter::Sum for Tensor` (lines 404-411; the by-reference
instance, lines 413-420, computes the same values up to `shallow_clone`):
an empty iterator yields `Tensor::from(0.)`, otherwise the items are
folded with `|acc, x| x + acc`; `none` models a panic inside `+`. -/
def sum_tensors (l : List Tensor) : Option Tensor :=
  match l with
  | [] => some (from_f64 0)
  | t :: ts => ts.foldl (fun acc x => acc.bind (fun a => hadd x a)) (some t)

/-- `Tensor::onehot` (lines 384-394): zeros of shape `self.size ++
[labels]` in `FLOAT_CPU`, then `scatter_(-1)` of a rank-0 one at the
indices `self.unsqueeze(-1).to_kind(Int64)`. -/
def onehot (t : Tensor) (labels : Nat) : Tensor :=
  scatter_last
    (zeros (t.size ++ [labels]) FLOAT_CPU)
    (to_kind (unsqueeze_last t) Kind.Int64)
    (ones [] FLOAT_CPU)

/-! ### The reference-counted arena (spec §3, §5)

Modelled from the spec: Array Handles are reference-counted aliases of
engine-resident storage.  The store is an arena (list of array values);
a handle is an index into it; a shallow clone shares the index, an
allocation appends a fresh cell. -/

/-- A handle: an owned alias naming one storage cell of the arena. -/
structure Handle where
  cell : Nat
  deriving DecidableEq

/-- The default value read from an invalid handle. -/
def emptyTensor : Tensor := ⟨[], Kind.Float, Device.Cpu, []⟩

/-- Read the array value a handle aliases. -/
def heapGet (σ : List Tensor) (h : Handle) : Tensor := σ.getD h.cell emptyTensor

/-- `shallow_clone`: a new handle sharing the same storage cell. -/
def shallow_clone (h : Handle) : Handle := h

/-- Modelled from the spec: allocation of a fresh array appends a cell to
the arena and returns its handle. -/
def alloc (σ : List Tensor) (t : Tensor) : List Tensor × Handle :=
  (σ ++ [t], ⟨σ.length⟩)

/-- `zeros_like`: a same-shape, same-kind, same-device array of zeros. -/
def zeros_like (t : Tensor) : Tensor :=
  ⟨t.size, t.kind, t.device, t.data.map (fun _ => 0)⟩

/-- `copy_`: in-place element-wise store of `src` into `dst`. -/
def copy_inplace (dst src : Tensor) : Tensor := { dst with data := src.data }

/-- `Tensor::copy` (lines 396-401): allocate `zeros_like`, then `copy_`
the source data into the fresh cell — the only aliasing-breaking copy. -/
def copy (σ : List Tensor) (h : Handle) : List Tensor × Handle :=
  alloc σ (copy_inplace (zeros_like (heapGet σ h)) (heapGet σ h))

/-- `impl AddAssign<i64> for Tensor` / `<f64>` (impl_op_assign_basic,
lines 132-145, instantiated line 162): the in-place engine scalar addition
`g_add_1`, mutating the storage cell the handle aliases. -/
def add_assign_scalar (σ : List Tensor) (h : Handle) (s : ℚ) : List Tensor :=
  σ.set h.cell (g_add1 (heapGet σ h) s)

/-! ### The identity layer, from `src/src/nn/mod.rs` -/

/-- `nn::Id`, the identity layer (line 40). -/
structure Id where

/-- `impl ModuleT for Id` (lines 42-46): `forward_t` returns
`xs.shallow_clone()` whatever the `train` flag. -/
def Id.forward_t (_layer : Id) (_σ : List Tensor) (xs : Handle) (_train : Bool) : Handle :=
  shallow_clone xs

/-! ### Helper lemmas -/

theorem getD_append_lt {α} (l1 l2 : List α) (i : Nat) (d : α) (h : i < l1.length) :
    (l1 ++ l2).getD i d = l1.getD i d := by
  simp only [List.getD, List.get?_eq_getElem?]
  rw [List.getElem?_append]
  rw [if_pos h]

theorem getD_append_self {α} (l1 : List α) (x d : α) :
    (l1 ++ [x]).getD l1.length d = x := by
  simp only [List.getD, List.get?_eq_getElem?]
  rw [List.getElem?_append]
  simp

theorem getD_set_self {α} (l : List α) (i : Nat) (v d : α) (h : i < l.length) :
    (l.set i v).getD i d = v := by
  simp [List.getD, List.getElem?_set_self, h]

theorem getD_set_ne {α} (l : List α) (i j : Nat) (v d : α) (h : i ≠ j) :
    (l.set i v).getD j d = l.getD j d := by
  simp [List.getD, List.getElem?_set_ne h]

theorem all_diag_ones (l : List ℚ) :
    (List.zipWith (fun x y => if x = y then (1 : ℚ) else 0) l l).all
      (fun x => decide (x ≠ 0)) = true := by
  rw [List.zipWith_same]
  simp

/-- Structural equality is reflexive and in particular evaluates, through
`f_eq1` and `f_all`, to `some true` on any tensor compared with itself. -/
theorem tensor_eq_refl (t : Tensor) : tensor_eq t t = some true := by
  have h1 : f_eq1 t t = Except.ok ⟨t.size, Kind.Uint8, t.device,
      List.zipWith (fun x y => if x = y then (1 : ℚ) else 0) t.data t.data⟩ := by
    simp [f_eq1]
  have h2 : f_all ⟨t.size, Kind.Uint8, t.device,
      List.zipWith (fun x y => if x = y then (1 : ℚ) else 0) t.data t.data⟩
      = Except.ok ⟨[], Kind.Uint8, t.device, [1]⟩ := by
    simp only [f_all, all_diag_ones, if_pos]
  have h3 : i64_from ⟨[], Kind.Uint8, t.device, [1]⟩ = Except.ok 1 := by
    norm_num [i64_from, numel, vecFrom, to_kind, castKind, Kind.isIntegral, truncQ]
  simp only [tensor_eq]
  rw [if_neg (by simp), h1]
  simp only [h2, h3]
  norm_num

/-! ### Claim theorems -/

/-- C1: the scalar-on-the-left non-commutative operators apply the
operator-specific reversal: `s - a` computes `neg (a - s)` — hence, element
by element, the mathematically correct `s - aᵢ` — and `s / a` computes
`(a / s).pow (-1)`, the element-wise reciprocal of `a / s`. -/
theorem c1_scalar_left_reversal (s : ℚ) (a : Tensor) :
    scalar_sub_tensor s a = neg (tensor_sub_scalar a s)
    ∧ (scalar_sub_tensor s a).data = a.data.map (fun x => s - x)
    ∧ scalar_div_tensor s a = pow_scalar (tensor_div_scalar a s) (-1)
    ∧ (scalar_div_tensor s a).data = a.data.map (fun x => (x / s)⁻¹) := by
  refine ⟨rfl, ?_, rfl, ?_⟩
  · simp [scalar_sub_tensor, neg, g_neg, g_sub1, mapData, neg_sub]
  · simp [scalar_div_tensor, inv, pow_scalar, g_div1, mapData, zpow_neg_one]

/-- C4: addition and multiplication are promotion-symmetric — the
scalar-on-the-left forms swap operands through the identity reversal, and
the two orders are structurally equal tensors. -/
theorem c4_promotion_symmetry (s : ℚ) (a : Tensor) :
    scalar_add_tensor s a = tensor_add_scalar a s
    ∧ scalar_mul_tensor s a = tensor_mul_scalar a s
    ∧ tensor_eq (tensor_add_scalar a s) (scalar_add_tensor s a) = some true
    ∧ tensor_eq (tensor_mul_scalar a s) (scalar_mul_tensor s a) = some true :=
  ⟨rfl, rfl, tensor_eq_refl _, tensor_eq_refl _⟩

/-- C2: structural equality is a total, panic-free predicate: it always
returns a boolean, and returns `true` exactly when the shapes agree and
the element-wise comparison followed by the all-reduce succeeds and
evaluates true (a positive reduced value); any engine failure on the way
yields `false`, never a panic. -/
theorem c2_structural_equality_total (a b : Tensor) :
    (∃ r, tensor_eq a b = some r)
    ∧ (tensor_eq a b = some true ↔
        a.size = b.size ∧ ∃ v w x, f_eq1 a b = Except.ok v ∧ f_all v = Except.ok w
          ∧ i64_from w = Except.ok x ∧ 0 < x) := by
  by_cases hs : a.size = b.size
  · by_cases hc : a.size = b.size ∧ a.kind = b.kind ∧ a.device = b.device
    · have h1 : f_eq1 a b = Except.ok ⟨a.size, Kind.Uint8, a.device,
          List.zipWith (fun x y => if x = y then (1 : ℚ) else 0) a.data b.data⟩ := by
        simp only [f_eq1]
        rw [if_pos hc]
      set P : Bool := (List.zipWith (fun x y => if x = y then (1 : ℚ) else 0)
        a.data b.data).all (fun x => decide (x ≠ 0)) with hP
      have h2 : f_all ⟨a.size, Kind.Uint8, a.device,
          List.zipWith (fun x y => if x = y then (1 : ℚ) else 0) a.data b.data⟩
          = Except.ok ⟨[], Kind.Uint8, a.device, [if P then 1 else 0]⟩ := rfl
      have h3 : i64_from ⟨[], Kind.Uint8, a.device, [if P then 1 else 0]⟩
          = Except.ok (if P then 1 else 0) := by
        cases P <;> norm_num [i64_from, numel, vecFrom, to_kind, castKind,
          Kind.isIntegral, truncQ]
      have h4 : tensor_eq a b = some (decide ((0 : ℚ) < if P then 1 else 0)) := by
        simp only [tensor_eq]
        rw [if_neg (by simp [hs]), h1]
        simp only [h2, h3]
      refine ⟨⟨_, h4⟩, ?_⟩
      constructor
      · intro ht
        rw [h4] at ht
        refine ⟨hs, _, _, if P then 1 else 0, h1, h2, h3, ?_⟩
        by_contra hx
        cases hPv : P <;> rw [hPv] at ht <;> simp_all
      · rintro ⟨-, v, w, x, hv, hw, hx, hpos⟩
        rw [h1] at hv
        cases hv
        rw [h2] at hw
        cases hw
        rw [h3] at hx
        cases hx
        rw [h4]
        simpa using hpos
    · have h1 : f_eq1 a b = Except.error "eq1: incompatible operands" := by
        simp only [f_eq1]
        rw [if_neg hc]
      have h4 : tensor_eq a b = some false := by
        simp only [tensor_eq]
        rw [if_neg (by simp [hs]), h1]
      refine ⟨⟨_, h4⟩, ?_⟩
      constructor
      · intro ht
        rw [h4] at ht
        simp at ht
      · rintro ⟨-, v, w, x, hv, -, -, -⟩
        rw [h1] at hv
        cases hv
  · have h4 : tensor_eq a b = some false := by
      simp only [tensor_eq]
      rw [if_pos hs]
    refine ⟨⟨_, h4⟩, ?_⟩
    constructor
    · intro ht
      rw [h4] at ht
      simp at ht
    · rintro ⟨hss, -⟩
      exact absurd hss hs

/-- C3: scalar extraction through `From<&Tensor> for f64` fails fatally
with a message carrying the element count whenever the count is not one,
and returns the single element unchanged when it is one. -/
theorem c3_scalar_extraction_guard (t : Tensor) (x : ℚ) :
    (numel t ≠ 1 →
      f64_from t = Except.error ("expected exactly one element, got " ++ toString (numel t)))
    ∧ (numel t = 1 → t.data = [x] → f64_from t = Except.ok x) := by
  constructor
  · intro h
    simp [f64_from, h]
  · intro h1 h2
    simp [f64_from, h1, vecFrom, to_kind, h2, castKind, Kind.isIntegral]

theorem c3_scalar_extraction_guard_witness :
    f64_from ⟨[2], Kind.Double, Device.Cpu, [3, 4]⟩
      = Except.error "expected exactly one element, got 2"
    ∧ f64_from ⟨[], Kind.Double, Device.Cpu, [5]⟩ = Except.ok 5 := by
  constructor
  · have h := (c3_scalar_extraction_guard ⟨[2], Kind.Double, Device.Cpu, [3, 4]⟩ 0).1
      (by decide)
    rw [h]
    rfl
  · exact (c3_scalar_extraction_guard ⟨[], Kind.Double, Device.Cpu, [5]⟩ 5).2 (by decide) rfl

/-- C6: an in-place `a += s` mutates the storage cell, so the update is
observed through the shallow-cloned alias, while a tensor copied with
`Tensor::copy` before the update keeps the original value. -/
theorem c6_inplace_aliasing (σ : List Tensor) (a : Handle) (s : ℚ) (ha : a.cell < σ.length) :
    heapGet (add_assign_scalar (copy σ a).1 a s) (shallow_clone a) = g_add1 (heapGet σ a) s
    ∧ heapGet (add_assign_scalar (copy σ a).1 a s) (copy σ a).2 = heapGet σ a := by
  have hval : copy_inplace (zeros_like (heapGet σ a)) (heapGet σ a) = heapGet σ a := rfl
  have hσ1 : (copy σ a).1 = σ ++ [heapGet σ a] := rfl
  have hget1 : heapGet (σ ++ [heapGet σ a]) a = heapGet σ a := by
    simp only [heapGet]
    exact getD_append_lt σ _ a.cell emptyTensor ha
  constructor
  · show heapGet (add_assign_scalar (copy σ a).1 a s) a = g_add1 (heapGet σ a) s
    rw [hσ1]
    simp only [add_assign_scalar, heapGet]
    rw [getD_append_lt σ _ a.cell emptyTensor ha]
    refine getD_set_self (σ ++ [σ.getD a.cell emptyTensor]) a.cell _ emptyTensor ?_
    simp only [List.length_append, List.length_singleton]
    omega
  · rw [hσ1]
    show heapGet ((σ ++ [heapGet σ a]).set a.cell _) ⟨σ.length⟩ = heapGet σ a
    simp only [heapGet]
    rw [getD_set_ne _ _ _ _ _ (by omega)]
    exact getD_append_self σ _ emptyTensor

theorem c6_inplace_aliasing_witness :
    heapGet (add_assign_scalar
        (copy [⟨[1], Kind.Double, Device.Cpu, [7]⟩] ⟨0⟩).1 ⟨0⟩ 1) (shallow_clone ⟨0⟩)
      = ⟨[1], Kind.Double, Device.Cpu, [8]⟩
    ∧ heapGet (add_assign_scalar
        (copy [⟨[1], Kind.Double, Device.Cpu, [7]⟩] ⟨0⟩).1 ⟨0⟩ 1)
        (copy [⟨[1], Kind.Double, Device.Cpu, [7]⟩] ⟨0⟩).2
      = ⟨[1], Kind.Double, Device.Cpu, [7]⟩ := by
  have h := c6_inplace_aliasing [⟨[1], Kind.Double, Device.Cpu, [7]⟩] ⟨0⟩ 1 (by decide)
  constructor
  · rw [h.1]
    norm_num [heapGet, List.getD, g_add1, mapData]
  · rw [h.2]
    norm_num [heapGet, List.getD]

/-- C10: the identity layer's `forward_t` returns a shallow clone of its
input for every value of the `train` flag: the result names the same
storage cell, is structurally equal to the input, and is not the fresh
cell an explicit `copy` would allocate. -/
theorem c10_id_forward (layer : Id) (σ : List Tensor) (xs : Handle) (train : Bool)
    (h : xs.cell < σ.length) :
    (Id.forward_t layer σ xs train).cell = xs.cell
    ∧ tensor_eq (heapGet σ (Id.forward_t layer σ xs train)) (heapGet σ xs) = some true
    ∧ Id.forward_t layer σ xs train ≠ (copy σ xs).2 := by
  refine ⟨rfl, tensor_eq_refl _, ?_⟩
  intro hEq
  have h2 : xs.cell = σ.length := congrArg Handle.cell hEq
  omega

theorem c10_id_forward_witness :
    (Id.forward_t ⟨⟩ [emptyTensor] ⟨0⟩ true).cell = 0
    ∧ Id.forward_t ⟨⟩ [emptyTensor] ⟨0⟩ true ≠ (copy [emptyTensor] ⟨0⟩).2 := by
  have h := c10_id_forward ⟨⟩ [emptyTensor] ⟨0⟩ true (by decide)
  exact ⟨h.1, h.2.2⟩

theorem sum_fold_eq (ts : List Tensor) : ∀ (t : Tensor),
    (∀ u ∈ ts, u.size = t.size ∧ u.kind = t.kind ∧ u.device = t.device) →
    ts.foldl (fun acc x => acc.bind (fun a => hadd x a)) (some t)
      = some (ts.foldl add_pure t) := by
  induction ts with
  | nil =>
    intro t h
    rfl
  | cons u rest ih =>
    intro t h
    have hu := h u (List.mem_cons_self u rest)
    have hstep : hadd u t = some (add_pure t u) := by
      simp only [hadd, f_add]
      rw [if_pos ⟨hu.1, hu.2.1, hu.2.2⟩]
      simp only [Except.toOption]
      rw [List.zipWith_comm_of_comm _ (fun x y => add_comm x y)]
      simp [add_pure, hu.1, hu.2.1, hu.2.2]
    simp only [List.foldl_cons]
    rw [show (some t).bind (fun a => hadd u a) = hadd u t from rfl, hstep]
    refine ih (add_pure t u) (fun w hw => ?_)
    have := h w (List.mem_cons_of_mem _ hw)
    simpa [add_pure] using this

/-- C9: summing an empty list of tensors yields the rank-0 `Double` zero
tensor; summing a non-empty list whose items are mutually compatible
yields the left fold of element-wise addition over the items. -/
theorem c9_sum_of_tensors :
    sum_tensors [] = some ⟨[], Kind.Double, Device.Cpu, [0]⟩
    ∧ ∀ (t : Tensor) (ts : List Tensor),
        (∀ u ∈ ts, u.size = t.size ∧ u.kind = t.kind ∧ u.device = t.device) →
        sum_tensors (t :: ts) = some (ts.foldl add_pure t) := by
  refine ⟨rfl, ?_⟩
  intro t ts h
  exact sum_fold_eq ts t h

theorem c9_sum_of_tensors_witness :
    sum_tensors [⟨[2], Kind.Double, Device.Cpu, [1, 2]⟩,
        ⟨[2], Kind.Double, Device.Cpu, [10, 20]⟩]
      = some ⟨[2], Kind.Double, Device.Cpu, [11, 22]⟩ := by
  have h := c9_sum_of_tensors.2 ⟨[2], Kind.Double, Device.Cpu, [1, 2]⟩
    [⟨[2], Kind.Double, Device.Cpu, [10, 20]⟩]
    (by
      intro u hu
      simp only [List.mem_singleton] at hu
      subst hu
      exact ⟨rfl, rfl, rfl⟩)
  rw [h]
  norm_num [add_pure, List.foldl, List.zipWith]

theorem getD_range_map {α} (n : Nat) (f : Nat → α) (p : Nat) (d : α) (h : p < n) :
    ((List.range n).map f).getD p d = f p := by
  simp [List.getD, List.get?_eq_getElem?, List.getElem?_range h]

theorem getD_map_lt {α β} (l : List α) (f : α → β) (p : Nat) (d : β) (d' : α)
    (h : p < l.length) :
    (l.map f).getD p d = f (l.getD p d') := by
  simp [List.getD, List.get?_eq_getElem?, List.getElem?_eq_getElem h]

theorem getD_replicate {α} (n : Nat) (x : α) (p : Nat) (d : α) (h : p < n) :
    (List.replicate n x).getD p d = x := by
  simp [List.getD, List.get?_eq_getElem?, List.getElem?_replicate, h]

theorem scatter_last_getD (base index src : Tensor) (p : Nat) (hp : p < base.data.length) :
    (scatter_last base index src).data.getD p 0
      = if ((p % base.size.getLastD 1 : Nat) : Int)
            = ⌊index.data.getD (p / base.size.getLastD 1) 0⌋
        then src.data.headD 0
        else base.data.getD p 0 := by
  simp only [scatter_last]
  exact getD_range_map _ _ _ _ hp

/-- C7: `onehot` yields a floating-kind tensor of shape
`labels.shape ++ [num_labels]`, zero everywhere except a 1 scattered along
the new trailing axis at the position named by each label element after
the cast to the engine index kind. -/
theorem c7_onehot (t : Tensor) (L : Nat) (hw : t.data.length = t.size.prod) :
    (onehot t L).size = t.size ++ [L]
    ∧ (onehot t L).kind = Kind.Float
    ∧ (onehot t L).data.length = numel t * L
    ∧ ∀ r c, r < numel t → c < L →
        (onehot t L).data.getD (r * L + c) 0
          = if ((c : Nat) : Int) = ⌊castKind Kind.Int64 (t.data.getD r 0)⌋
            then 1 else 0 := by
  refine ⟨rfl, rfl, ?_, ?_⟩
  · simp [onehot, scatter_last, zeros, numel, List.prod_append]
  · intro r c hr hc
    have hL : 0 < L := by omega
    have hlen : (zeros (t.size ++ [L]) FLOAT_CPU).data.length = numel t * L := by
      simp [zeros, numel, List.prod_append]
    have hplt2 : r * L + c < numel t * L := by
      have h1 : (r + 1) * L ≤ numel t * L := Nat.mul_le_mul_right L hr
      have h2 : (r + 1) * L = r * L + L := by ring
      omega
    have hplt : r * L + c < (zeros (t.size ++ [L]) FLOAT_CPU).data.length := by
      rw [hlen]
      exact hplt2
    have hlast : (zeros (t.size ++ [L]) FLOAT_CPU).size.getLastD 1 = L := by
      simp [zeros]
    have hmod : (r * L + c) % L = c := by
      rw [Nat.add_comm, Nat.add_mul_mod_self_right]
      exact Nat.mod_eq_of_lt hc
    have hdiv : (r * L + c) / L = r := by
      rw [Nat.add_comm, Nat.add_mul_div_right c r hL]
      rw [Nat.div_eq_of_lt hc]
      omega
    have hidx : (to_kind (unsqueeze_last t) Kind.Int64).data.getD r 0
        = castKind Kind.Int64 (t.data.getD r 0) := by
      simp only [to_kind, unsqueeze_last]
      exact getD_map_lt t.data _ r 0 0 (by rw [hw]; exact hr)
    have hbase : (zeros (t.size ++ [L]) FLOAT_CPU).data.getD (r * L + c) 0 = 0 := by
      simp only [zeros]
      exact getD_replicate _ _ _ _ (by simpa [List.prod_append, numel] using hplt2)
    have hsrc : (ones [] FLOAT_CPU).data.headD 0 = 1 := rfl
    rw [show onehot t L = scatter_last (zeros (t.size ++ [L]) FLOAT_CPU)
      (to_kind (unsqueeze_last t) Kind.Int64) (ones [] FLOAT_CPU) from rfl]
    rw [scatter_last_getD _ _ _ _ hplt, hlast, hmod, hdiv, hidx, hbase, hsrc]

theorem c7_onehot_witness :
    (onehot ⟨[2], Kind.Int64, Device.Cpu, [0, 2]⟩ 4).size = [2, 4]
    ∧ (onehot ⟨[2], Kind.Int64, Device.Cpu, [0, 2]⟩ 4).data.getD (0 * 4 + 0) 0 = 1
    ∧ (onehot ⟨[2], Kind.Int64, Device.Cpu, [0, 2]⟩ 4).data.getD (1 * 4 + 2) 0 = 1
    ∧ (onehot ⟨[2], Kind.Int64, Device.Cpu, [0, 2]⟩ 4).data.getD (1 * 4 + 1) 0 = 0 := by
  have h := c7_onehot ⟨[2], Kind.Int64, Device.Cpu, [0, 2]⟩ 4 (by decide)
  refine ⟨h.1, ?_, ?_, ?_⟩
  · rw [h.2.2.2 0 0 (by decide) (by decide)]
    norm_num [castKind, Kind.isIntegral, truncQ, List.getD]
  · rw [h.2.2.2 1 2 (by decide) (by decide)]
    norm_num [castKind, Kind.isIntegral, truncQ, List.getD]
  · rw [h.2.2.2 1 1 (by decide) (by decide)]
    norm_num [castKind, Kind.isIntegral, truncQ, List.getD]

theorem flatten_chunk (rows : List (List ℚ)) (c : Nat) :
    ∀ i, (∀ r ∈ rows, r.length = c) → i < rows.length →
      ((rows.flatten).drop (i * c)).take c = rows.getD i [] := by
  induction rows with
  | nil =>
    intro i _ hi
    simp at hi
  | cons r rest ih =>
    intro i hlen hi
    cases i with
    | zero =>
      have hr : r.length = c := hlen r (List.mem_cons_self r rest)
      simp only [List.flatten_cons, Nat.zero_mul, List.drop_zero]
      rw [← hr, List.take_left]
      rfl
    | succ j =>
      have hr : r.length = c := hlen r (List.mem_cons_self r rest)
      have hj : j < rest.length := by simpa using hi
      have heq : (j + 1) * c = r.length + j * c := by rw [hr]; ring
      rw [List.flatten_cons, heq, List.drop_append]
      rw [ih j (fun r2 hm => hlen r2 (List.mem_cons_of_mem _ hm)) hj]
      rfl

theorem getRow_length (t : Tensor) (l : Nat) (rs : List Nat) (h : t.size = l :: rs)
    (hw : t.data.length = t.size.prod) (k : Nat) (hk : k < l) :
    (getRow t k).length = rowStride t := by
  have hstride : rowStride t = rs.prod := by simp [rowStride, h]
  have hlen : t.data.length = l * rs.prod := by rw [hw, h]; simp [List.prod_cons]
  simp only [getRow, List.length_take, List.length_drop, hstride, hlen]
  have ha : (k + 1) * rs.prod ≤ l * rs.prod := Nat.mul_le_mul_right _ hk
  have hb : (k + 1) * rs.prod = k * rs.prod + rs.prod := by ring
  omega

theorem index_select0_row (t idxT : Tensor) (l : Nat) (rs : List Nat)
    (h : t.size = l :: rs) (hw : t.data.length = t.size.prod)
    (hidx : ∀ q ∈ idxT.data, ⌊q⌋.toNat < l) (i : Nat) (hi : i < idxT.data.length) :
    getRow (index_select0 t idxT) i = getRow t ⌊idxT.data.getD i 0⌋.toNat := by
  have hstride : rowStride (index_select0 t idxT) = rowStride t := rfl
  have hrows : ∀ row ∈ idxT.data.map (fun q => getRow t ⌊q⌋.toNat),
      row.length = rowStride t := by
    intro row hrow
    obtain ⟨q, hq, hqe⟩ := List.mem_map.mp hrow
    rw [← hqe]
    exact getRow_length t l rs h hw _ (hidx q hq)
  have hdata : (index_select0 t idxT).data
      = (idxT.data.map (fun q => getRow t ⌊q⌋.toNat)).flatten := rfl
  show ((index_select0 t idxT).data.drop
      (i * rowStride (index_select0 t idxT))).take (rowStride (index_select0 t idxT))
    = getRow t ⌊idxT.data.getD i 0⌋.toNat
  rw [hstride, hdata]
  rw [flatten_chunk _ (rowStride t) i hrows (by simpa using hi)]
  exact getD_map_lt idxT.data _ i [] 0 hi

/-- C5: `random_batch2` fails fatally, reporting both shapes, exactly when
the leading dimensions differ; when they match it returns two batches with
leading dimension `n`, both on the requested device, gathered with one
shared random index vector, so row `i` of each batch comes from the same
source row `k`. -/
theorem c5_random_batch2 (t1 t2 : Tensor) (n : Nat) (dev : Device) (rng : Nat → Nat)
    (l1 l2 : Nat) (r1 r2 : List Nat)
    (h1 : t1.size = l1 :: r1) (h2 : t2.size = l2 :: r2)
    (hw1 : t1.data.length = t1.size.prod) (hw2 : t2.data.length = t2.size.prod)
    (hl : 0 < l1) :
    (l1 ≠ l2 → random_batch2 t1 t2 n dev rng
        = Except.error ("random_batch2: shape mismatch " ++ toString t1.size
            ++ " " ++ toString t2.size))
    ∧ (l1 = l2 → ∃ b1 b2, random_batch2 t1 t2 n dev rng = Except.ok (b1, b2)
        ∧ b1.size = n :: r1 ∧ b2.size = n :: r2
        ∧ b1.device = dev ∧ b2.device = dev
        ∧ ∀ i, i < n → ∃ k, k < l1
            ∧ getRow b1 i = getRow t1 k ∧ getRow b2 i = getRow t2 k) := by
  constructor
  · intro hne
    simp only [random_batch2, h1, h2]
    rw [if_pos hne]
  · intro heq
    subst heq
    set idxT : Tensor := randint l1 n rng with hidxT
    have hidxdata : idxT.data = (List.range n).map (fun i => ((rng i % l1 : Nat) : ℚ)) := rfl
    have hidxlen : idxT.data.length = n := by
      rw [hidxdata]
      simp
    have hfloor : ∀ j, (⌊((rng j % l1 : Nat) : ℚ)⌋ : Int).toNat = rng j % l1 := by
      intro j
      rw [Int.floor_natCast]
      exact Int.toNat_natCast _
    have hidx1 : ∀ q ∈ idxT.data, ⌊q⌋.toNat < l1 := by
      intro q hq
      rw [hidxdata] at hq
      obtain ⟨j, -, hje⟩ := List.mem_map.mp hq
      rw [← hje, hfloor]
      exact Nat.mod_lt _ hl
    refine ⟨to_device (index_select0 t1 idxT) dev, to_device (index_select0 t2 idxT) dev,
      ?_, ?_, ?_, rfl, rfl, ?_⟩
    · simp only [random_batch2, h1, h2]
      rw [if_neg (by simp)]
    · show idxT.data.length :: t1.size.tail = n :: r1
      rw [hidxlen, h1]
      rfl
    · show idxT.data.length :: t2.size.tail = n :: r2
      rw [hidxlen, h2]
      rfl
    · intro i hin
      refine ⟨rng i % l1, Nat.mod_lt _ hl, ?_, ?_⟩
      · show getRow (index_select0 t1 idxT) i = getRow t1 (rng i % l1)
        rw [index_select0_row t1 idxT l1 r1 h1 hw1 hidx1 i (by rw [hidxlen]; exact hin)]
        rw [hidxdata, getD_range_map n _ i 0 hin, hfloor]
      · show getRow (index_select0 t2 idxT) i = getRow t2 (rng i % l1)
        rw [index_select0_row t2 idxT l1 r2 h2 hw2 hidx1 i (by rw [hidxlen]; exact hin)]
        rw [hidxdata, getD_range_map n _ i 0 hin, hfloor]

theorem c5_random_batch2_witness :
    random_batch2 ⟨[2, 1], Kind.Double, Device.Cpu, [1, 2]⟩
        ⟨[3], Kind.Double, Device.Cpu, [5, 6, 7]⟩ 4 (Device.Cuda 0) (fun j => j)
      = Except.error "random_batch2: shape mismatch [2, 1] [3]"
    ∧ ∃ b1 b2, random_batch2 ⟨[2, 1], Kind.Double, Device.Cpu, [1, 2]⟩
        ⟨[2], Kind.Int64, Device.Cpu, [5, 6]⟩ 3 (Device.Cuda 0) (fun j => j)
      = Except.ok (b1, b2) ∧ b1.size = [3, 1] ∧ b2.size = [3]
      ∧ b1.device = Device.Cuda 0 ∧ b2.device = Device.Cuda 0 := by
  constructor
  · have h := (c5_random_batch2 ⟨[2, 1], Kind.Double, Device.Cpu, [1, 2]⟩
      ⟨[3], Kind.Double, Device.Cpu, [5, 6, 7]⟩ 4 (Device.Cuda 0) (fun j => j)
      2 3 [1] [] rfl rfl (by decide) (by decide) (by decide)).1 (by decide)
    rw [h]
    rfl
  · obtain ⟨b1, b2, hok, hs1, hs2, hd1, hd2, -⟩ :=
      (c5_random_batch2 ⟨[2, 1], Kind.Double, Device.Cpu, [1, 2]⟩
      ⟨[2], Kind.Int64, Device.Cpu, [5, 6]⟩ 3 (Device.Cuda 0) (fun j => j)
      2 2 [1] [] rfl rfl (by decide) (by decide) (by decide)).2 rfl
    exact ⟨b1, b2, hok, hs1, hs2, hd1, hd2⟩

/-- C8 counterexample: a rank-0 tensor of a complex kind is rendered as
the shape/kind summary, not as a bracketed scalar — the unqualified
"rank-0 Tensors render as a single bracketed scalar" clause fails on
complex kinds, which the Debug impl sends to the summary arm. -/
theorem c8_debug_counterexample :
    fmt ⟨[], Kind.ComplexFloat, Device.Cpu, [2]⟩
      = DebugOut.summary [] Kind.ComplexFloat
    ∧ (fmt ⟨[], Kind.ComplexFloat, Device.Cpu, [2]⟩).isScalar = false :=
  ⟨rfl, rfl⟩

/-- C8 (amended): rank-0 tensors of integer or floating (non-complex)
kind render as a single bracketed scalar; rank-1 such tensors with fewer
than 10 elements render as a bracketed list of elements; every other
tensor — complex kind, rank two or more, or rank-1 with 10 or more
elements — renders only the shape/kind summary. -/
theorem c8_debug_rendering (t : Tensor) :
    (t.size = [] → (t.kind.isIntegral || t.kind.isFloating) = true →
      fmt t = DebugOut.bracketedScalar
        ((vecFrom (if t.kind.isIntegral then Kind.Int64 else Kind.Double) t).headD 0))
    ∧ (∀ s, t.size = [s] → s < 10 → (t.kind.isIntegral || t.kind.isFloating) = true →
      fmt t = DebugOut.bracketedList
        (vecFrom (if t.kind.isIntegral then Kind.Int64 else Kind.Double) t))
    ∧ ((t.kind.isIntegral = false ∧ t.kind.isFloating = false)
        ∨ 2 ≤ t.size.length ∨ (∃ s, t.size = [s] ∧ 10 ≤ s) →
      fmt t = DebugOut.summary t.size t.kind) := by
  obtain ⟨sz, k, dv, da⟩ := t
  refine ⟨?_, ?_, ?_⟩
  · rintro rfl hk
    cases k <;> first
      | rfl
      | (simp [Kind.isIntegral, Kind.isFloating] at hk; done)
  · rintro s rfl hs hk
    cases k <;> first
      | (simp [fmt, Kind.isIntegral, Kind.isFloating, hs]; done)
      | (simp [Kind.isIntegral, Kind.isFloating] at hk; done)
  · rintro (⟨hi, hf⟩ | hlen | ⟨s, rfl, hs⟩)
    · cases k <;> first
        | (simp [Kind.isIntegral] at hi; done)
        | (simp [Kind.isFloating] at hf; done)
        | (rcases sz with _ | ⟨s, _ | ⟨s2, r⟩⟩ <;> rfl)
    · rcases sz with _ | ⟨s, _ | ⟨s2, r⟩⟩
      · simp at hlen
      · simp at hlen
      · rfl
    · cases k <;>
        simp [fmt, Kind.isIntegral, Kind.isFloating, show ¬ s < 10 from by omega]

theorem c8_debug_rendering_witness :
    fmt ⟨[], Kind.Int, Device.Cpu, [3]⟩ = DebugOut.bracketedScalar 3
    ∧ fmt ⟨[3], Kind.Double, Device.Cpu, [1, 2, 3]⟩ = DebugOut.bracketedList [1, 2, 3]
    ∧ fmt ⟨[12], Kind.Double, Device.Cpu, []⟩ = DebugOut.summary [12] Kind.Double := by
  have ha := (c8_debug_rendering ⟨[], Kind.Int, Device.Cpu, [3]⟩).1 rfl (by decide)
  have hb := (c8_debug_rendering ⟨[3], Kind.Double, Device.Cpu, [1, 2, 3]⟩).2.1 3 rfl
    (by decide) (by decide)
  have hc := (c8_debug_rendering ⟨[12], Kind.Double, Device.Cpu, []⟩).2.2
    (Or.inr (Or.inr ⟨12, rfl, by decide⟩))
  refine ⟨?_, ?_, hc⟩
  · rw [ha]
    norm_num [vecFrom, to_kind, castKind, Kind.isIntegral, truncQ]
  · rw [hb]
    norm_num [vecFrom, to_kind, castKind, Kind.isIntegral, Kind.isFloating]

end TchSpec
